import Mathlib

/-!
Formal model of the hpy debug-mode handle layer.

The embedding follows the internal header of `hpy/debug/src` (the file that
defines `DHPy_sanity_check`, `UHPy_sanity_check`, `as_DebugHandle`, `as_DHPy`,
`DHPy_unwrap`, `DebugHandle`, `DHQueue`, `HPyDebugInfo`, `get_info` and the
default limit constants).  The implementations of `DHPy_open`, `DHPy_close`,
`DHPy_free`, `DHPy_invalid_handle`, the `DHQueue` operations and the raw-data
guard are only declared in that header; their behaviour is modelled from the
specification and each such definition is marked below.

Machine words (`HPy_ssize_t`, `long`) are modelled as `Int`; pointers are
modelled by their address word, and the C heap of `DebugHandle` records by a
map from addresses to optional records.  The intrusive doubly-linked queues
are modelled as Lean lists (front = head), and pointer identity of wrapper
records by an `id` field drawn from a fresh-name counter in the session state.
A passing C `assert` is modelled as `true` / normal continuation, a failing
one as `false` / an error outcome.
-/

/-- HPy handle: a single machine word (field `_i` of type `HPy_ssize_t`).
Both `UHPy` and `DHPy` are aliases of `HPy` in the source. -/
structure HPy where
  _i : Int
  deriving DecidableEq, Repr

/-- Modelled from the spec: `HPy_NULL` is defined in the public hpy headers
(not among the debug-layer sources) as the handle whose word is zero. -/
def HPy_NULL : HPy := ⟨0⟩

/-- Modelled from the spec: `HPy_IsNull` from the public hpy headers; true
exactly on the zero word. -/
def HPy_IsNull (h : HPy) : Bool := h._i == 0

/-- UHPy: a handle of the underlying (universal) context. -/
abbrev UHPy := HPy

/-- DHPy: a handle of the debug context; its word is a `DebugHandle*`. -/
abbrev DHPy := HPy

/-- DHPy_sanity_check: `assert((dh._i & 1) == 0)`.  A DHPy is a
`DebugHandle*`, so its low bit must be 0.  The result is the truth of the
assert (`dh._i % 2` is the two's-complement low bit). -/
def DHPy_sanity_check (dh : DHPy) : Bool := dh._i % 2 == 0

/-- UHPy_sanity_check: with `HPY_DEBUG_ENABLE_UHPY_SANITY_CHECK` defined
(parameter `enabled` = true) it asserts that a non-null UHPy has low bit 1;
with the flag off — the default — the function body is empty, so every
value passes. -/
def UHPy_sanity_check (enabled : Bool) (uh : UHPy) : Bool :=
  if enabled then
    if HPy_IsNull uh then true else uh._i % 2 == 1
  else true

/-- DebugHandle: the wrapper record around a UHPy.  The C `void
*associated_data` pointer is modelled by its non-NULL-ness (`associated_data :
Bool`); the intrusive `prev`/`next` links are replaced by list membership, and
pointer identity of records by the model field `id`. -/
structure DebugHandle where
  uh : UHPy
  generation : Int
  is_closed : Bool
  associated_data : Bool
  associated_data_size : Int
  id : Nat
  deriving DecidableEq, Repr

/-- as_DebugHandle: runs `DHPy_sanity_check(dh)` and reinterprets the handle
word as a `DebugHandle*`.  The pointer is modelled by the address word itself;
a failed assert yields `none`. -/
def as_DebugHandle (dh : DHPy) : Option Int :=
  if DHPy_sanity_check dh then some dh._i else none

/-- as_DHPy: the inverse no-op cast, packing a `DebugHandle*` address back
into a handle word. -/
def as_DHPy (p : Int) : DHPy := ⟨p⟩

/-- DHeap: a view of the C heap restricted to `DebugHandle` records — which
record, if any, lives at a given address. -/
def DHeap := Int → Option DebugHandle

/-- UnwrapOutcome: result of `DHPy_unwrap`.  `ret uh` is a normal return;
`invalidHandle` means `DHPy_invalid_handle` was invoked (fatal,
non-returning); `assertFailed` is a failed `DHPy_sanity_check`; `dangling`
marks a dereference of an address holding no record (undefined in C, never
reached under the model's hypotheses). -/
inductive UnwrapOutcome where
  | ret (uh : UHPy)
  | invalidHandle
  | assertFailed
  | dangling
  deriving DecidableEq, Repr

/-- DHPy_unwrap, from the source: return `HPy_NULL` for a null handle,
otherwise cast via `as_DebugHandle` and, if the record is closed, invoke
`DHPy_invalid_handle`.  `DHPy_invalid_handle` itself is modelled from the
spec: its implementation is not among the sources and §7 makes it a fatal,
non-returning path, so its invocation is the final outcome `invalidHandle`
and no handle value is returned past it. -/
def DHPy_unwrap (heap : DHeap) (dh : DHPy) : UnwrapOutcome :=
  if HPy_IsNull dh then .ret HPy_NULL
  else
    match as_DebugHandle dh with
    | none => .assertFailed
    | some p =>
      match heap p with
      | none => .dangling
      | some handle =>
        if handle.is_closed then .invalidHandle else .ret handle.uh

/-- DHQueue_append: tail insertion on the list model of the queue. -/
def DHQueue_append (q : List DebugHandle) (h : DebugHandle) : List DebugHandle :=
  q ++ [h]

/-- DHQueue_remove: unlinking a given node from the queue; on the list model,
removal of the first (and, under the session invariant, only) record with the
given identity. -/
def DHQueue_remove : List DebugHandle → Nat → List DebugHandle
  | [], _ => []
  | h :: t, i => if h.id == i then t else h :: DHQueue_remove t i

/-- HPY_DEBUG_MAGIC, from the source: `0xDEB00FF`. -/
def HPY_DEBUG_MAGIC : Int := 0xDEB00FF

/-- DEFAULT_CLOSED_HANDLES_QUEUE_MAX_SIZE, from the source: `1024`. -/
def DEFAULT_CLOSED_HANDLES_QUEUE_MAX_SIZE : Int := 1024

/-- DEFAULT_PROTECTED_RAW_DATA_MAX_SIZE, from the source: `1024 * 1024 * 10`. -/
def DEFAULT_PROTECTED_RAW_DATA_MAX_SIZE : Int := 1024 * 1024 * 10

/-- HPyDebugInfo: the session state.  Fields mirror the C struct; the
`uctx` pointer (never inspected by this layer) is dropped, and two model-only fields
are added: `freed_handles`, a log of the wrappers destroyed by `DHPy_free`
(in C their storage is reclaimed and unreachable), `next_id`, the fresh-name
counter standing in for the allocator's choice of distinct addresses, and a
sticky `violation` flag recording that the fatal invalid-handle path was
taken. -/
structure HPyDebugInfo where
  magic_number : Int
  current_generation : Int
  uh_on_invalid_handle : UHPy
  closed_handles_queue_max_size : Int
  protected_raw_data_max_size : Int
  protected_raw_data_size : Int
  open_handles : List DebugHandle
  closed_handles : List DebugHandle
  freed_handles : List DebugHandle
  next_id : Nat
  violation : Bool
  deriving DecidableEq, Repr

/-- HPyContext: of the C context struct only the `_private` slot matters to
this layer; it holds the session state. -/
structure HPyContext where
  _private : HPyDebugInfo
  deriving DecidableEq, Repr

/-- get_info, from the source: reads `dctx->_private` and asserts
`info->magic_number == HPY_DEBUG_MAGIC`; a failed assert (detection of a
foreign context) is `none`. -/
def get_info (dctx : HPyContext) : Option HPyDebugInfo :=
  let info := dctx._private
  if info.magic_number == HPY_DEBUG_MAGIC then some info else none

/-- protected_size: the number of bytes a wrapper currently contributes to
the protected-raw-data total — its buffer size if it still holds a buffer,
else 0. -/
def protected_size (h : DebugHandle) : Int :=
  if h.associated_data then h.associated_data_size else 0

/-- total_protected: the bytes contributed by a whole queue. -/
def total_protected (l : List DebugHandle) : Int :=
  (l.map protected_size).sum

/-- Modelled from the spec: `DHPy_free` (declared in the header, implemented
elsewhere) releases the wrapper's storage and, through `raw_data_free`, any
raw buffer still attached, removing its bytes from the running protected
total; the destroyed wrapper is appended to the model's freed log. -/
def DHPy_free (info : HPyDebugInfo) (h : DebugHandle) : HPyDebugInfo :=
  { info with
      protected_raw_data_size := info.protected_raw_data_size - protected_size h,
      freed_handles := info.freed_handles ++ [h] }

/-- Modelled from the spec: `DHPy_open` (declared in the header, implemented
elsewhere) creates a wrapper for `uh`, stamps it with the session's current
generation, and inserts it into the open queue (§4.1).  The model allocates a
fresh identity from `next_id`; the returned `Nat` is the new wrapper's
identity (the address inside the returned DHPy).  The wrapper record a call
to open creates is `open_new_handle`. -/
def open_new_handle (info : HPyDebugInfo) (uh : UHPy) : DebugHandle :=
  { uh := uh, generation := info.current_generation, is_closed := false,
    associated_data := false, associated_data_size := 0, id := info.next_id }

def DHPy_open (info : HPyDebugInfo) (uh : UHPy) : HPyDebugInfo × Nat :=
  ({ info with
      open_handles := DHQueue_append info.open_handles (open_new_handle info uh),
      next_id := info.next_id + 1 },
   info.next_id)

/-- Modelled from the spec: the Raw-Data Guard's close-time policy (§4.3).
Protecting the closing wrapper's buffer increments the running total; if that
would push the total over the budget, the buffer is instead released
(`raw_data_free`) immediately and the total is unchanged.  Returns the new
total and the stored wrapper record. -/
def raw_data_close_policy (total budget : Int) (h : DebugHandle) :
    Int × DebugHandle :=
  if h.associated_data then
    if total + h.associated_data_size > budget then
      (total, { h with associated_data := false, associated_data_size := 0 })
    else
      (total + h.associated_data_size, h)
  else (total, h)

/-- Modelled from the spec: quarantine-pressure eviction (§4.2) — if one more
append would push the closed queue past its configured maximum, the oldest
member is popped from the front and freed. -/
def close_evict (info : HPyDebugInfo) : HPyDebugInfo :=
  if (info.closed_handles.length : Int) + 1 > info.closed_handles_queue_max_size then
    match info.closed_handles with
    | [] => info
    | old :: rest => DHPy_free { info with closed_handles := rest } old
  else info

/-- Modelled from the spec: `DHPy_close` (declared in the header, implemented
elsewhere).  Closing a wrapper found open removes it from the open queue,
marks it closed, applies the raw-data policy, and appends it to the closed
(quarantine) queue; if the append would push the queue past its configured
maximum, the oldest member is popped from the front and freed first (§4.2).
Closing an already-closed wrapper is a double-close protocol violation: the
fatal `DHPy_invalid_handle` path is taken (§7), recorded by the sticky
`violation` flag, and nothing else happens.  A wrapper found nowhere is a
dangling pointer (undefined in C): the model leaves the state unchanged.
The raw-data policy applied to the closing wrapper is factored out as
`close_policy_result`. -/
def close_policy_result (info : HPyDebugInfo) (h : DebugHandle) : Int × DebugHandle :=
  raw_data_close_policy info.protected_raw_data_size info.protected_raw_data_max_size
    { h with is_closed := true }

def DHPy_close (info : HPyDebugInfo) (i : Nat) : HPyDebugInfo :=
  match info.open_handles.find? (fun h => h.id == i) with
  | some h =>
    let pr := close_policy_result info h
    let info2 := close_evict
      { info with
          open_handles := DHQueue_remove info.open_handles i,
          protected_raw_data_size := pr.1 }
    { info2 with closed_handles := DHQueue_append info2.closed_handles pr.2 }
  | none =>
    if info.closed_handles.any (fun h => h.id == i) then
      { info with violation := true }
    else info

/-- Modelled from the spec: the per-wrapper effect of attaching raw data —
the wrapper with the given identity receives the buffer, every other wrapper
is untouched. -/
def attach_update (i : Nat) (size : Nat) (h : DebugHandle) : DebugHandle :=
  if h.id == i then
    { h with associated_data := true, associated_data_size := (size : Int) }
  else h

/-- Modelled from the spec: a context function attaching raw data to an open
handle sets the wrapper's `associated_data` pointer and size to the copy made
by `raw_data_copy` (header comment; §4.3).  Sizes originate from actual
buffers, hence are non-negative (`Nat`). -/
def attach_raw_data (info : HPyDebugInfo) (i : Nat) (size : Nat) : HPyDebugInfo :=
  { info with open_handles := info.open_handles.map (attach_update i size) }

/-- Modelled from the spec: the session's generation counter is incremented
at caller-chosen checkpoints (§4.4). -/
def new_generation (info : HPyDebugInfo) : HPyDebugInfo :=
  { info with current_generation := info.current_generation + 1 }

/-- DebugOp: the operations a caller can perform on one session. -/
inductive DebugOp where
  | openH (uh : UHPy)
  | closeH (i : Nat)
  | attach (i : Nat) (size : Nat)
  | newGen
  deriving DecidableEq, Repr

/-- debug_step: one operation applied to the session state. -/
def debug_step (info : HPyDebugInfo) : DebugOp → HPyDebugInfo
  | .openH uh => (DHPy_open info uh).1
  | .closeH i => DHPy_close info i
  | .attach i size => attach_raw_data info i size
  | .newGen => new_generation info

/-- debug_run: a whole call sequence applied to the session state. -/
def debug_run (info : HPyDebugInfo) : List DebugOp → HPyDebugInfo
  | [] => info
  | op :: ops => debug_run (debug_step info op) ops

/-- Modelled from the spec: session construction (§6) — the magic tag is
set, counters start at zero, the queues start empty, and the limits take
their default values. -/
def hpy_debug_info_init : HPyDebugInfo :=
  { magic_number := HPY_DEBUG_MAGIC
    current_generation := 0
    uh_on_invalid_handle := HPy_NULL
    closed_handles_queue_max_size := DEFAULT_CLOSED_HANDLES_QUEUE_MAX_SIZE
    protected_raw_data_max_size := DEFAULT_PROTECTED_RAW_DATA_MAX_SIZE
    protected_raw_data_size := 0
    open_handles := []
    closed_handles := []
    freed_handles := []
    next_id := 0
    violation := false }

/-- Modelled from the spec: session construction with user-configured limits
(§6: both limits are set at construction and immutable thereafter). -/
def session_init (qmax budget : Int) : HPyDebugInfo :=
  { hpy_debug_info_init with
      closed_handles_queue_max_size := qmax
      protected_raw_data_max_size := budget }

/-- assigned_generations: the trace of generation values stamped onto the
wrappers created by the `openH` operations of a call sequence, in call
order. -/
def assigned_generations (info : HPyDebugInfo) : List DebugOp → List Int
  | [] => []
  | op :: ops =>
    match op with
    | .openH _ => info.current_generation :: assigned_generations (debug_step info op) ops
    | _ => assigned_generations (debug_step info op) ops

/-- handles_of: every wrapper record the session has ever produced and still
tracks — open, quarantined, or destroyed (the model's freed log). -/
def handles_of (info : HPyDebugInfo) : List DebugHandle :=
  info.open_handles ++ info.closed_handles ++ info.freed_handles

/-- cnt: how many wrappers of a list carry a given identity. -/
def cnt (l : List DebugHandle) (j : Nat) : Nat :=
  (l.map (fun h => h.id)).count j

/-- QueueInv: the queue-discipline invariant of a session state — the
configured maximum is positive, the quarantine never exceeds it, and wrapper
identities are fresh (all below the allocation counter) and pairwise
distinct. -/
def QueueInv (info : HPyDebugInfo) : Prop :=
  1 ≤ info.closed_handles_queue_max_size ∧
  (info.closed_handles.length : Int) ≤ info.closed_handles_queue_max_size ∧
  (∀ h ∈ handles_of info, h.id < info.next_id) ∧
  (∀ j, cnt (handles_of info) j ≤ 1)

/-- RawInv: the raw-data accounting invariant of a session state — the
running total is exactly the bytes still attached to quarantined wrappers,
it never exceeds the configured budget, and every recorded buffer size is
non-negative. -/
def RawInv (info : HPyDebugInfo) : Prop :=
  info.protected_raw_data_size = total_protected info.closed_handles ∧
  info.protected_raw_data_size ≤ info.protected_raw_data_max_size ∧
  (∀ h ∈ handles_of info, 0 ≤ h.associated_data_size)

/-! ## Helper lemmas -/

theorem find?_id_eq {l : List DebugHandle} {i : Nat} {h : DebugHandle}
    (hf : l.find? (fun g => g.id == i) = some h) : h.id = i := by
  simpa using List.find?_some hf

theorem DHQueue_remove_perm (i : Nat) (h : DebugHandle) :
    ∀ l : List DebugHandle, l.find? (fun g => g.id == i) = some h →
      l.Perm (h :: DHQueue_remove l i)
  | [], hf => by simp at hf
  | a :: t, hf => by
    by_cases ha : (a.id == i) = true
    · rw [List.find?_cons_of_pos (p := fun g => g.id == i) t ha] at hf
      injection hf with hf
      subst hf
      rw [DHQueue_remove, if_pos ha]
    · rw [List.find?_cons_of_neg (p := fun g => g.id == i) t ha] at hf
      have ih := DHQueue_remove_perm i h t hf
      rw [DHQueue_remove, if_neg ha]
      exact (ih.cons a).trans (List.Perm.swap h a _)

theorem mem_of_mem_remove {l : List DebugHandle} {i : Nat} {h : DebugHandle}
    (hf : l.find? (fun g => g.id == i) = some h) :
    ∀ g ∈ DHQueue_remove l i, g ∈ l := by
  intro g hg
  exact (DHQueue_remove_perm i h l hf).mem_iff.2 (List.mem_cons_of_mem _ hg)

theorem cnt_append (l1 l2 : List DebugHandle) (j : Nat) :
    cnt (l1 ++ l2) j = cnt l1 j + cnt l2 j := by
  simp [cnt, List.count_append]

theorem cnt_singleton (a : DebugHandle) (j : Nat) :
    cnt [a] j = if a.id = j then 1 else 0 := by
  simp [cnt, List.count_singleton', List.count_cons]

theorem cnt_eq_zero_of_bound (l : List DebugHandle) (n : Nat)
    (hb : ∀ h ∈ l, h.id < n) : cnt l n = 0 := by
  rw [cnt, List.count_eq_zero]
  intro hmem
  obtain ⟨g, hg, hgid⟩ := List.mem_map.1 hmem
  exact absurd hgid (Nat.ne_of_lt (hb g hg))

theorem cnt_remove_eq {l : List DebugHandle} {i : Nat} {h : DebugHandle}
    (hf : l.find? (fun g => g.id == i) = some h) (j : Nat) :
    cnt l j = (if h.id = j then 1 else 0) + cnt (DHQueue_remove l i) j := by
  have hp : (l.map (fun g => g.id)).Perm
      ((h :: DHQueue_remove l i).map (fun g => g.id)) :=
    (DHQueue_remove_perm i h l hf).map _
  have hc : cnt l j = cnt (h :: DHQueue_remove l i) j := hp.count_eq j
  rw [hc]
  have : cnt (h :: DHQueue_remove l i) j = cnt [h] j + cnt (DHQueue_remove l i) j :=
    cnt_append [h] (DHQueue_remove l i) j
  rw [this, cnt_singleton]

theorem total_protected_append (l1 l2 : List DebugHandle) :
    total_protected (l1 ++ l2) = total_protected l1 + total_protected l2 := by
  simp [total_protected]

theorem total_protected_cons (a : DebugHandle) (l : List DebugHandle) :
    total_protected (a :: l) = protected_size a + total_protected l := by
  simp [total_protected]

theorem protected_size_nonneg {h : DebugHandle}
    (hs : 0 ≤ h.associated_data_size) : 0 ≤ protected_size h := by
  unfold protected_size
  split <;> omega

theorem raw_data_close_policy_id (t b : Int) (h : DebugHandle) :
    (raw_data_close_policy t b h).2.id = h.id := by
  unfold raw_data_close_policy
  split
  · split <;> rfl
  · rfl

theorem raw_data_close_policy_facts (t b : Int) (h : DebugHandle)
    (hs : 0 ≤ h.associated_data_size) (htb : t ≤ b) :
    (raw_data_close_policy t b h).1
        = t + protected_size (raw_data_close_policy t b h).2
    ∧ (raw_data_close_policy t b h).1 ≤ b
    ∧ 0 ≤ (raw_data_close_policy t b h).2.associated_data_size := by
  unfold raw_data_close_policy
  rcases hd : h.associated_data with _ | _
  · simp only [hd, Bool.false_eq_true, if_false]
    refine ⟨?_, htb, hs⟩
    simp [protected_size, hd]
  · simp only [hd, if_true]
    split
    · refine ⟨?_, htb, by simp⟩
      simp [protected_size]
    · rename_i hfits
      refine ⟨?_, by omega, hs⟩
      simp [protected_size, hd]

theorem attach_update_id (i size : Nat) (h : DebugHandle) :
    (attach_update i size h).id = h.id := by
  unfold attach_update
  split <;> rfl

theorem attach_update_size (i size : Nat) (h : DebugHandle)
    (hs : 0 ≤ h.associated_data_size) :
    0 ≤ (attach_update i size h).associated_data_size := by
  unfold attach_update
  split
  · exact Int.natCast_nonneg _
  · exact hs

theorem mem_handles_of (info : HPyDebugInfo) (g : DebugHandle) :
    g ∈ handles_of info ↔
      g ∈ info.open_handles ∨ g ∈ info.closed_handles ∨ g ∈ info.freed_handles := by
  simp [handles_of, List.mem_append, or_assoc]

theorem handles_of_decomp (info : HPyDebugInfo) :
    handles_of info = info.open_handles ++ info.closed_handles ++ info.freed_handles := rfl

theorem close_evict_fits (info : HPyDebugInfo)
    (hc : ¬((info.closed_handles.length : Int) + 1 > info.closed_handles_queue_max_size)) :
    close_evict info = info := by
  unfold close_evict
  rw [if_neg hc]

theorem close_evict_full (info : HPyDebugInfo) (old : DebugHandle)
    (rest : List DebugHandle) (hcl : info.closed_handles = old :: rest)
    (hc : (info.closed_handles.length : Int) + 1 > info.closed_handles_queue_max_size) :
    close_evict info =
      { info with
          closed_handles := rest,
          protected_raw_data_size := info.protected_raw_data_size - protected_size old,
          freed_handles := info.freed_handles ++ [old] } := by
  unfold close_evict
  rw [if_pos hc, hcl]
  simp [DHPy_free]

theorem DHPy_close_notfound (info : HPyDebugInfo) (i : Nat)
    (hf : info.open_handles.find? (fun g => g.id == i) = none) :
    DHPy_close info i =
      if info.closed_handles.any (fun h => h.id == i) then
        { info with violation := true }
      else info := by
  unfold DHPy_close
  rw [hf]

theorem DHPy_close_found (info : HPyDebugInfo) (i : Nat) (h : DebugHandle)
    (hf : info.open_handles.find? (fun g => g.id == i) = some h) :
    DHPy_close info i =
      { close_evict
          { info with
              open_handles := DHQueue_remove info.open_handles i,
              protected_raw_data_size := (close_policy_result info h).1 } with
        closed_handles :=
          DHQueue_append
            (close_evict
              { info with
                  open_handles := DHQueue_remove info.open_handles i,
                  protected_raw_data_size := (close_policy_result info h).1 }).closed_handles
            (close_policy_result info h).2 } := by
  unfold DHPy_close
  rw [hf]

theorem DHPy_close_fits (info : HPyDebugInfo) (i : Nat) (h : DebugHandle)
    (hf : info.open_handles.find? (fun g => g.id == i) = some h)
    (hfit : ¬((info.closed_handles.length : Int) + 1 > info.closed_handles_queue_max_size)) :
    DHPy_close info i =
      { info with
          open_handles := DHQueue_remove info.open_handles i,
          protected_raw_data_size := (close_policy_result info h).1,
          closed_handles := info.closed_handles ++ [(close_policy_result info h).2] } := by
  rw [DHPy_close_found info i h hf,
      close_evict_fits
        { info with
            open_handles := DHQueue_remove info.open_handles i,
            protected_raw_data_size := (close_policy_result info h).1 } hfit]
  rfl

theorem DHPy_close_full (info : HPyDebugInfo) (i : Nat) (h old : DebugHandle)
    (rest : List DebugHandle)
    (hf : info.open_handles.find? (fun g => g.id == i) = some h)
    (hcl : info.closed_handles = old :: rest)
    (hfull : (info.closed_handles.length : Int) + 1 > info.closed_handles_queue_max_size) :
    DHPy_close info i =
      { info with
          open_handles := DHQueue_remove info.open_handles i,
          protected_raw_data_size := (close_policy_result info h).1 - protected_size old,
          closed_handles := rest ++ [(close_policy_result info h).2],
          freed_handles := info.freed_handles ++ [old] } := by
  rw [DHPy_close_found info i h hf,
      close_evict_full
        { info with
            open_handles := DHQueue_remove info.open_handles i,
            protected_raw_data_size := (close_policy_result info h).1 } old rest hcl hfull]
  rfl

theorem handles_of_open (info : HPyDebugInfo) (uh : UHPy) :
    handles_of (DHPy_open info uh).1
      = info.open_handles ++ [open_new_handle info uh]
        ++ info.closed_handles ++ info.freed_handles := rfl

theorem DHPy_close_const (info : HPyDebugInfo) (i : Nat) :
    (DHPy_close info i).closed_handles_queue_max_size = info.closed_handles_queue_max_size
    ∧ (DHPy_close info i).protected_raw_data_max_size = info.protected_raw_data_max_size
    ∧ (DHPy_close info i).current_generation = info.current_generation
    ∧ (DHPy_close info i).next_id = info.next_id
    ∧ (DHPy_close info i).magic_number = info.magic_number := by
  cases hf : info.open_handles.find? (fun g => g.id == i) with
  | some h =>
    rw [DHPy_close_found info i h hf]
    unfold close_evict
    split
    · split <;> simp [DHPy_free]
    · simp
  | none =>
    rw [DHPy_close_notfound info i hf]
    split <;> simp

theorem debug_step_const (info : HPyDebugInfo) (op : DebugOp) :
    (debug_step info op).closed_handles_queue_max_size = info.closed_handles_queue_max_size
    ∧ (debug_step info op).protected_raw_data_max_size = info.protected_raw_data_max_size
    ∧ (debug_step info op).magic_number = info.magic_number := by
  cases op with
  | openH uh => exact ⟨rfl, rfl, rfl⟩
  | closeH i =>
    exact ⟨(DHPy_close_const info i).1, (DHPy_close_const info i).2.1,
      (DHPy_close_const info i).2.2.2.2⟩
  | attach i s => exact ⟨rfl, rfl, rfl⟩
  | newGen => exact ⟨rfl, rfl, rfl⟩

theorem debug_run_const (info : HPyDebugInfo) (ops : List DebugOp) :
    (debug_run info ops).closed_handles_queue_max_size = info.closed_handles_queue_max_size
    ∧ (debug_run info ops).protected_raw_data_max_size = info.protected_raw_data_max_size
    ∧ (debug_run info ops).magic_number = info.magic_number := by
  induction ops generalizing info with
  | nil => exact ⟨rfl, rfl, rfl⟩
  | cons op ops ih =>
    have h1 := debug_step_const info op
    have h2 := ih (debug_step info op)
    exact ⟨h2.1.trans h1.1, h2.2.1.trans h1.2.1, h2.2.2.trans h1.2.2⟩

theorem debug_step_gen_mono (info : HPyDebugInfo) (op : DebugOp) :
    info.current_generation ≤ (debug_step info op).current_generation := by
  cases op with
  | openH uh => exact le_refl _
  | closeH i =>
    show info.current_generation ≤ (DHPy_close info i).current_generation
    rw [(DHPy_close_const info i).2.2.1]
  | attach i s => exact le_refl _
  | newGen =>
    show info.current_generation ≤ info.current_generation + 1
    omega

theorem debug_run_gen_mono (info : HPyDebugInfo) (ops : List DebugOp) :
    info.current_generation ≤ (debug_run info ops).current_generation := by
  induction ops generalizing info with
  | nil => exact le_refl _
  | cons op ops ih =>
    exact (debug_step_gen_mono info op).trans (ih (debug_step info op))

theorem QueueInv_open (info : HPyDebugInfo) (uh : UHPy) (hi : QueueInv info) :
    QueueInv (DHPy_open info uh).1 := by
  obtain ⟨h1, h2, h3, h4⟩ := hi
  refine ⟨h1, h2, ?_, ?_⟩
  · intro g hg
    rw [handles_of_open] at hg
    simp only [List.mem_append, List.mem_singleton] at hg
    show g.id < info.next_id + 1
    rcases hg with ((hg | hg) | hg) | hg
    · exact Nat.lt_succ_of_lt (h3 g ((mem_handles_of info g).2 (Or.inl hg)))
    · subst hg
      exact Nat.lt_succ_self _
    · exact Nat.lt_succ_of_lt (h3 g ((mem_handles_of info g).2 (Or.inr (Or.inl hg))))
    · exact Nat.lt_succ_of_lt (h3 g ((mem_handles_of info g).2 (Or.inr (Or.inr hg))))
  · intro j
    have hc : cnt (handles_of (DHPy_open info uh).1) j
        = cnt info.open_handles j + cnt [open_new_handle info uh] j
          + cnt info.closed_handles j + cnt info.freed_handles j := by
      rw [handles_of_open, cnt_append, cnt_append, cnt_append]
    have hone := h4 j
    rw [handles_of_decomp, cnt_append, cnt_append] at hone
    rw [hc, cnt_singleton]
    by_cases hj : (open_new_handle info uh).id = j
    · have h0 : cnt (handles_of info) j = 0 := by
        rw [← hj]
        exact cnt_eq_zero_of_bound _ _ h3
      rw [handles_of_decomp, cnt_append, cnt_append] at h0
      rw [if_pos hj]
      omega
    · rw [if_neg hj]
      omega

theorem handles_of_attach (info : HPyDebugInfo) (i s : Nat) :
    handles_of (attach_raw_data info i s)
      = info.open_handles.map (attach_update i s)
        ++ info.closed_handles ++ info.freed_handles := rfl

theorem cnt_map_attach (l : List DebugHandle) (i s j : Nat) :
    cnt (l.map (attach_update i s)) j = cnt l j := by
  unfold cnt
  rw [List.map_map]
  have hfun : ((fun h : DebugHandle => h.id) ∘ attach_update i s)
      = fun h : DebugHandle => h.id := by
    funext g
    simp [Function.comp, attach_update_id]
  rw [hfun]

theorem QueueInv_attach (info : HPyDebugInfo) (i s : Nat) (hi : QueueInv info) :
    QueueInv (attach_raw_data info i s) := by
  obtain ⟨h1, h2, h3, h4⟩ := hi
  refine ⟨h1, h2, ?_, ?_⟩
  · intro g hg
    rw [handles_of_attach] at hg
    simp only [List.mem_append] at hg
    show g.id < info.next_id
    rcases hg with (hg | hg) | hg
    · obtain ⟨g0, hg0, rfl⟩ := List.mem_map.1 hg
      rw [attach_update_id]
      exact h3 g0 ((mem_handles_of info g0).2 (Or.inl hg0))
    · exact h3 g ((mem_handles_of info g).2 (Or.inr (Or.inl hg)))
    · exact h3 g ((mem_handles_of info g).2 (Or.inr (Or.inr hg)))
  · intro j
    have hc : cnt (handles_of (attach_raw_data info i s)) j = cnt (handles_of info) j := by
      rw [handles_of_attach, cnt_append, cnt_append, cnt_map_attach,
          handles_of_decomp, cnt_append, cnt_append]
    rw [hc]
    exact h4 j

theorem QueueInv_newgen (info : HPyDebugInfo) (hi : QueueInv info) :
    QueueInv (new_generation info) := hi

theorem QueueInv_close (info : HPyDebugInfo) (i : Nat) (hi : QueueInv info) :
    QueueInv (DHPy_close info i) := by
  obtain ⟨h1, h2, h3, h4⟩ := hi
  cases hf : info.open_handles.find? (fun g => g.id == i) with
  | none =>
    rw [DHPy_close_notfound info i hf]
    split
    · exact ⟨h1, h2, h3, h4⟩
    · exact ⟨h1, h2, h3, h4⟩
  | some h =>
    have hpid : (close_policy_result info h).2.id = h.id :=
      raw_data_close_policy_id _ _ _
    have hhmem : h ∈ info.open_handles := List.mem_of_find?_eq_some hf
    have hremove : ∀ g ∈ DHQueue_remove info.open_handles i, g ∈ info.open_handles :=
      mem_of_mem_remove hf
    by_cases hfull : (info.closed_handles.length : Int) + 1 > info.closed_handles_queue_max_size
    · have hlen1 : 1 ≤ info.closed_handles.length := by omega
      cases hcl : info.closed_handles with
      | nil =>
        rw [hcl] at hlen1
        simp at hlen1
      | cons old rest =>
        have hlen : info.closed_handles.length = rest.length + 1 := by
          rw [hcl]
          rfl
        rw [DHPy_close_full info i h old rest hf hcl hfull]
        refine ⟨h1, ?_, ?_, ?_⟩
        · show ((rest ++ [(close_policy_result info h).2]).length : Int)
            ≤ info.closed_handles_queue_max_size
          rw [List.length_append]
          simp only [List.length_singleton]
          omega
        · intro g hg
          simp only [handles_of, List.mem_append, List.mem_singleton] at hg
          show g.id < info.next_id
          rcases hg with (hg | hg | hg) | hg | hg
          · exact h3 g ((mem_handles_of info g).2 (Or.inl (hremove g hg)))
          · refine h3 g ((mem_handles_of info g).2 (Or.inr (Or.inl ?_)))
            rw [hcl]
            exact List.mem_cons_of_mem old hg
          · subst hg
            rw [hpid]
            exact h3 h ((mem_handles_of info h).2 (Or.inl hhmem))
          · exact h3 g ((mem_handles_of info g).2 (Or.inr (Or.inr hg)))
          · subst hg
            refine h3 g ((mem_handles_of info g).2 (Or.inr (Or.inl ?_)))
            rw [hcl]
            exact List.mem_cons_self _ _
        · intro j
          have e1 := cnt_remove_eq hf j
          have e4 := h4 j
          rw [handles_of_decomp, cnt_append, cnt_append] at e4
          have e2 : cnt info.closed_handles j = (if old.id = j then 1 else 0) + cnt rest j := by
            rw [hcl, show old :: rest = [old] ++ rest from rfl, cnt_append, cnt_singleton]
          show cnt (DHQueue_remove info.open_handles i
              ++ (rest ++ [(close_policy_result info h).2])
              ++ (info.freed_handles ++ [old])) j ≤ 1
          rw [cnt_append, cnt_append, cnt_append, cnt_append, cnt_singleton, cnt_singleton, hpid]
          split_ifs at e1 e2 ⊢ <;> omega
    · rw [DHPy_close_fits info i h hf hfull]
      refine ⟨h1, ?_, ?_, ?_⟩
      · show ((info.closed_handles ++ [(close_policy_result info h).2]).length : Int)
          ≤ info.closed_handles_queue_max_size
        rw [List.length_append]
        simp only [List.length_singleton]
        omega
      · intro g hg
        simp only [handles_of, List.mem_append, List.mem_singleton] at hg
        show g.id < info.next_id
        rcases hg with (hg | hg | hg) | hg
        · exact h3 g ((mem_handles_of info g).2 (Or.inl (hremove g hg)))
        · exact h3 g ((mem_handles_of info g).2 (Or.inr (Or.inl hg)))
        · subst hg
          rw [hpid]
          exact h3 h ((mem_handles_of info h).2 (Or.inl hhmem))
        · exact h3 g ((mem_handles_of info g).2 (Or.inr (Or.inr hg)))
      · intro j
        have e1 := cnt_remove_eq hf j
        have e4 := h4 j
        rw [handles_of_decomp, cnt_append, cnt_append] at e4
        show cnt (DHQueue_remove info.open_handles i
            ++ (info.closed_handles ++ [(close_policy_result info h).2])
            ++ info.freed_handles) j ≤ 1
        rw [cnt_append, cnt_append, cnt_append, cnt_singleton, hpid]
        split_ifs at e1 ⊢ <;> omega

theorem QueueInv_step (info : HPyDebugInfo) (op : DebugOp) (hi : QueueInv info) :
    QueueInv (debug_step info op) := by
  cases op with
  | openH uh => exact QueueInv_open info uh hi
  | closeH i => exact QueueInv_close info i hi
  | attach i s => exact QueueInv_attach info i s hi
  | newGen => exact QueueInv_newgen info hi

theorem QueueInv_run (info : HPyDebugInfo) (ops : List DebugOp) (hi : QueueInv info) :
    QueueInv (debug_run info ops) := by
  induction ops generalizing info with
  | nil => exact hi
  | cons op ops ih => exact ih (debug_step info op) (QueueInv_step info op hi)

theorem QueueInv_init (qmax budget : Int) (hq : 1 ≤ qmax) :
    QueueInv (session_init qmax budget) := by
  refine ⟨hq, ?_, ?_, ?_⟩
  · show ((List.length [] : Nat) : Int) ≤ qmax
    simp only [List.length_nil, Int.natCast_zero]
    omega
  · intro g hg
    simp [handles_of, session_init, hpy_debug_info_init] at hg
  · intro j
    show cnt ([] ++ [] ++ []) j ≤ 1
    simp [cnt]

theorem total_protected_singleton (a : DebugHandle) :
    total_protected [a] = protected_size a := by
  simp [total_protected]

theorem DHPy_close_nilclosed (info : HPyDebugInfo) (i : Nat) (h : DebugHandle)
    (hf : info.open_handles.find? (fun g => g.id == i) = some h)
    (hcl : info.closed_handles = []) :
    DHPy_close info i =
      { info with
          open_handles := DHQueue_remove info.open_handles i,
          protected_raw_data_size := (close_policy_result info h).1,
          closed_handles := info.closed_handles ++ [(close_policy_result info h).2] } := by
  rw [DHPy_close_found info i h hf]
  unfold close_evict
  dsimp only
  rw [hcl]
  split
  · rfl
  · rfl

theorem RawInv_open (info : HPyDebugInfo) (uh : UHPy) (hi : RawInv info) :
    RawInv (DHPy_open info uh).1 := by
  obtain ⟨r1, r2, r3⟩ := hi
  refine ⟨r1, r2, ?_⟩
  intro g hg
  rw [handles_of_open] at hg
  simp only [List.mem_append, List.mem_singleton] at hg
  rcases hg with ((hg | hg) | hg) | hg
  · exact r3 g ((mem_handles_of info g).2 (Or.inl hg))
  · subst hg
    exact le_refl 0
  · exact r3 g ((mem_handles_of info g).2 (Or.inr (Or.inl hg)))
  · exact r3 g ((mem_handles_of info g).2 (Or.inr (Or.inr hg)))

theorem RawInv_attach (info : HPyDebugInfo) (i s : Nat) (hi : RawInv info) :
    RawInv (attach_raw_data info i s) := by
  obtain ⟨r1, r2, r3⟩ := hi
  refine ⟨r1, r2, ?_⟩
  intro g hg
  rw [handles_of_attach] at hg
  simp only [List.mem_append] at hg
  rcases hg with (hg | hg) | hg
  · obtain ⟨g0, hg0, rfl⟩ := List.mem_map.1 hg
    exact attach_update_size i s g0 (r3 g0 ((mem_handles_of info g0).2 (Or.inl hg0)))
  · exact r3 g ((mem_handles_of info g).2 (Or.inr (Or.inl hg)))
  · exact r3 g ((mem_handles_of info g).2 (Or.inr (Or.inr hg)))

theorem RawInv_newgen (info : HPyDebugInfo) (hi : RawInv info) :
    RawInv (new_generation info) := hi

theorem RawInv_close (info : HPyDebugInfo) (i : Nat) (hi : RawInv info) :
    RawInv (DHPy_close info i) := by
  obtain ⟨r1, r2, r3⟩ := hi
  cases hf : info.open_handles.find? (fun g => g.id == i) with
  | none =>
    rw [DHPy_close_notfound info i hf]
    split
    · exact ⟨r1, r2, r3⟩
    · exact ⟨r1, r2, r3⟩
  | some h =>
    have hhmem : h ∈ info.open_handles := List.mem_of_find?_eq_some hf
    have hremove : ∀ g ∈ DHQueue_remove info.open_handles i, g ∈ info.open_handles :=
      mem_of_mem_remove hf
    have hhs : 0 ≤ h.associated_data_size :=
      r3 h ((mem_handles_of info h).2 (Or.inl hhmem))
    have f1 : (close_policy_result info h).1
        = info.protected_raw_data_size + protected_size (close_policy_result info h).2 :=
      (raw_data_close_policy_facts info.protected_raw_data_size
        info.protected_raw_data_max_size { h with is_closed := true } hhs r2).1
    have f2 : (close_policy_result info h).1 ≤ info.protected_raw_data_max_size :=
      (raw_data_close_policy_facts info.protected_raw_data_size
        info.protected_raw_data_max_size { h with is_closed := true } hhs r2).2.1
    have f3 : 0 ≤ (close_policy_result info h).2.associated_data_size :=
      (raw_data_close_policy_facts info.protected_raw_data_size
        info.protected_raw_data_max_size { h with is_closed := true } hhs r2).2.2
    by_cases hfull : (info.closed_handles.length : Int) + 1 > info.closed_handles_queue_max_size
    · cases hcl : info.closed_handles with
      | nil =>
        rw [DHPy_close_nilclosed info i h hf hcl]
        refine ⟨?_, ?_, ?_⟩
        · show (close_policy_result info h).1
            = total_protected (info.closed_handles ++ [(close_policy_result info h).2])
          rw [total_protected_append, total_protected_singleton, f1, r1]
        · exact f2
        · intro g hg
          simp only [handles_of, List.mem_append, List.mem_singleton] at hg
          rcases hg with (hg | hg | hg) | hg
          · exact r3 g ((mem_handles_of info g).2 (Or.inl (hremove g hg)))
          · exact r3 g ((mem_handles_of info g).2 (Or.inr (Or.inl hg)))
          · subst hg
            exact f3
          · exact r3 g ((mem_handles_of info g).2 (Or.inr (Or.inr hg)))
      | cons old rest =>
        rw [DHPy_close_full info i h old rest hf hcl hfull]
        have holdmem : old ∈ info.closed_handles := by
          rw [hcl]
          exact List.mem_cons_self _ _
        have holds : 0 ≤ old.associated_data_size :=
          r3 old ((mem_handles_of info old).2 (Or.inr (Or.inl holdmem)))
        have hpsold : 0 ≤ protected_size old := protected_size_nonneg holds
        refine ⟨?_, ?_, ?_⟩
        · show (close_policy_result info h).1 - protected_size old
            = total_protected (rest ++ [(close_policy_result info h).2])
          rw [total_protected_append, total_protected_singleton, f1, r1, hcl,
              total_protected_cons]
          omega
        · show (close_policy_result info h).1 - protected_size old
            ≤ info.protected_raw_data_max_size
          omega
        · intro g hg
          simp only [handles_of, List.mem_append, List.mem_singleton] at hg
          rcases hg with (hg | hg | hg) | hg | hg
          · exact r3 g ((mem_handles_of info g).2 (Or.inl (hremove g hg)))
          · refine r3 g ((mem_handles_of info g).2 (Or.inr (Or.inl ?_)))
            rw [hcl]
            exact List.mem_cons_of_mem old hg
          · subst hg
            exact f3
          · exact r3 g ((mem_handles_of info g).2 (Or.inr (Or.inr hg)))
          · subst hg
            exact holds
    · rw [DHPy_close_fits info i h hf hfull]
      refine ⟨?_, ?_, ?_⟩
      · show (close_policy_result info h).1
          = total_protected (info.closed_handles ++ [(close_policy_result info h).2])
        rw [total_protected_append, total_protected_singleton, f1, r1]
      · exact f2
      · intro g hg
        simp only [handles_of, List.mem_append, List.mem_singleton] at hg
        rcases hg with (hg | hg | hg) | hg
        · exact r3 g ((mem_handles_of info g).2 (Or.inl (hremove g hg)))
        · exact r3 g ((mem_handles_of info g).2 (Or.inr (Or.inl hg)))
        · subst hg
          exact f3
        · exact r3 g ((mem_handles_of info g).2 (Or.inr (Or.inr hg)))

theorem RawInv_step (info : HPyDebugInfo) (op : DebugOp) (hi : RawInv info) :
    RawInv (debug_step info op) := by
  cases op with
  | openH uh => exact RawInv_open info uh hi
  | closeH i => exact RawInv_close info i hi
  | attach i s => exact RawInv_attach info i s hi
  | newGen => exact RawInv_newgen info hi

theorem RawInv_run (info : HPyDebugInfo) (ops : List DebugOp) (hi : RawInv info) :
    RawInv (debug_run info ops) := by
  induction ops generalizing info with
  | nil => exact hi
  | cons op ops ih => exact ih (debug_step info op) (RawInv_step info op hi)

theorem RawInv_init (qmax budget : Int) (hb : 0 ≤ budget) :
    RawInv (session_init qmax budget) := by
  refine ⟨?_, hb, ?_⟩
  · rfl
  · intro g hg
    simp [handles_of, session_init, hpy_debug_info_init] at hg

theorem assigned_ge (ops : List DebugOp) :
    ∀ (info : HPyDebugInfo) (g : Int), g ∈ assigned_generations info ops →
      info.current_generation ≤ g := by
  induction ops with
  | nil =>
    intro info g hg
    simp [assigned_generations] at hg
  | cons op ops ih =>
    intro info g hg
    cases op with
    | openH uh =>
      simp only [assigned_generations] at hg
      rcases List.mem_cons.1 hg with hg | hg
      · exact le_of_eq hg.symm
      · exact (debug_step_gen_mono info (.openH uh)).trans
          (ih (debug_step info (.openH uh)) g hg)
    | closeH i =>
      simp only [assigned_generations] at hg
      exact (debug_step_gen_mono info (.closeH i)).trans
        (ih (debug_step info (.closeH i)) g hg)
    | attach i s =>
      simp only [assigned_generations] at hg
      exact (debug_step_gen_mono info (.attach i s)).trans
        (ih (debug_step info (.attach i s)) g hg)
    | newGen =>
      simp only [assigned_generations] at hg
      exact (debug_step_gen_mono info .newGen).trans
        (ih (debug_step info .newGen) g hg)

theorem assigned_pairwise (ops : List DebugOp) :
    ∀ info : HPyDebugInfo,
      List.Pairwise (fun a b : Int => a ≤ b) (assigned_generations info ops) := by
  induction ops with
  | nil =>
    intro info
    simp [assigned_generations]
  | cons op ops ih =>
    intro info
    cases op with
    | openH uh =>
      simp only [assigned_generations]
      refine List.Pairwise.cons ?_ (ih _)
      intro g hg
      exact (debug_step_gen_mono info (.openH uh)).trans
        (assigned_ge ops (debug_step info (.openH uh)) g hg)
    | closeH i =>
      simp only [assigned_generations]
      exact ih _
    | attach i s =>
      simp only [assigned_generations]
      exact ih _
    | newGen =>
      simp only [assigned_generations]
      exact ih _

/-! ## Claim theorems -/

/-- C1: once a DebugHandle is closed, any subsequent `DHPy_unwrap` of it takes
the stale-handle violation path — `DHPy_invalid_handle` is invoked (outcome
`invalidHandle`) and the call never returns the stored underlying handle as a
normal result — and a second `DHPy_close` of it takes the same fatal
double-close path, recording the violation and changing nothing else in the
session state. -/
theorem closed_handle_violation_path :
    (∀ (heap : DHeap) (dh : DHPy) (handle : DebugHandle),
        HPy_IsNull dh = false → dh._i % 2 = 0 → heap dh._i = some handle →
        handle.is_closed = true →
        DHPy_unwrap heap dh = UnwrapOutcome.invalidHandle
        ∧ ∀ u : UHPy, DHPy_unwrap heap dh ≠ UnwrapOutcome.ret u)
    ∧ (∀ (info : HPyDebugInfo) (i : Nat) (h : DebugHandle),
        info.open_handles.find? (fun g => g.id == i) = none →
        h ∈ info.closed_handles → h.id = i →
        DHPy_close info i = { info with violation := true }) := by
  constructor
  · intro heap dh handle hnull heven hheap hclosed
    have hu : DHPy_unwrap heap dh = UnwrapOutcome.invalidHandle := by
      simp [DHPy_unwrap, as_DebugHandle, DHPy_sanity_check, hnull, heven, hheap, hclosed]
    refine ⟨hu, ?_⟩
    intro u hc
    rw [hu] at hc
    exact UnwrapOutcome.noConfusion hc
  · intro info i h hf hmem hid
    rw [DHPy_close_notfound info i hf]
    have hany : info.closed_handles.any (fun g => g.id == i) = true :=
      List.any_eq_true.2 ⟨h, hmem, by simp [hid]⟩
    simp [hany]

/-- C1 witness: a concrete closed wrapper at address 2 whose unwrap takes the
invalid-handle outcome, and a concrete session in which closing the already
closed wrapper with identity 7 only sets the violation flag. -/
theorem closed_handle_violation_path_witness :
    DHPy_unwrap (fun a => if a = 2 then some ⟨⟨3⟩, 0, true, false, 0, 7⟩ else none) ⟨2⟩
        = UnwrapOutcome.invalidHandle
    ∧ DHPy_close
        ⟨HPY_DEBUG_MAGIC, 0, HPy_NULL, 1024, 10485760, 0, [],
          [⟨⟨3⟩, 0, true, false, 0, 7⟩], [], 8, false⟩ 7
      = { (⟨HPY_DEBUG_MAGIC, 0, HPy_NULL, 1024, 10485760, 0, [],
            [⟨⟨3⟩, 0, true, false, 0, 7⟩], [], 8, false⟩ : HPyDebugInfo) with
          violation := true } := by
  constructor
  · exact (closed_handle_violation_path.1
      (fun a => if a = 2 then some ⟨⟨3⟩, 0, true, false, 0, 7⟩ else none) ⟨2⟩
      ⟨⟨3⟩, 0, true, false, 0, 7⟩ (by decide) (by decide) (by decide) rfl).1
  · exact closed_handle_violation_path.2
      ⟨HPY_DEBUG_MAGIC, 0, HPy_NULL, 1024, 10485760, 0, [],
        [⟨⟨3⟩, 0, true, false, 0, 7⟩], [], 8, false⟩ 7
      ⟨⟨3⟩, 0, true, false, 0, 7⟩ rfl (by simp) rfl

/-- C2: for an open (not closed) DebugHandle, `DHPy_unwrap` returns the stored
underlying handle `uh` captured at open; since the source function only reads
the record, every repeated call yields this same value and the wrapper is not
modified (the model function is pure and its result is pinned to the stored
field). -/
theorem open_handle_unwrap_idempotent :
    ∀ (heap : DHeap) (dh : DHPy) (handle : DebugHandle),
      HPy_IsNull dh = false → dh._i % 2 = 0 → heap dh._i = some handle →
      handle.is_closed = false →
      DHPy_unwrap heap dh = UnwrapOutcome.ret handle.uh := by
  intro heap dh handle hnull heven hheap hopen
  simp [DHPy_unwrap, as_DebugHandle, DHPy_sanity_check, hnull, heven, hheap, hopen]

/-- C2 witness: a concrete open wrapper at address 4 wrapping the underlying
word 9; unwrap returns exactly that stored value. -/
theorem open_handle_unwrap_idempotent_witness :
    DHPy_unwrap (fun a => if a = 4 then some ⟨⟨9⟩, 0, false, false, 0, 3⟩ else none) ⟨4⟩
      = UnwrapOutcome.ret ⟨9⟩ := by
  exact open_handle_unwrap_idempotent
    (fun a => if a = 4 then some ⟨⟨9⟩, 0, false, false, 0, 3⟩ else none) ⟨4⟩
    ⟨⟨9⟩, 0, false, false, 0, 3⟩ (by decide) (by decide) (by decide) rfl

/-- C9: unwrapping the null wrapped handle is a total no-op success path — for
every heap (hence without reading any DebugHandle state), `DHPy_unwrap` on
`HPy_NULL` returns `HPy_NULL` and does not take the invalid-handle path. -/
theorem unwrap_null_noop :
    ∀ heap : DHeap,
      DHPy_unwrap heap HPy_NULL = UnwrapOutcome.ret HPy_NULL
      ∧ DHPy_unwrap heap HPy_NULL ≠ UnwrapOutcome.invalidHandle := by
  intro heap
  refine ⟨rfl, ?_⟩
  intro hc
  rw [show DHPy_unwrap heap HPy_NULL = UnwrapOutcome.ret HPy_NULL from rfl] at hc
  exact UnwrapOutcome.noConfusion hc

/-- C10: the wrapped-handle casts are mutually inverse no-op conversions — for
every even address `p` (every DebugHandle pointer has low bit 0),
`as_DebugHandle (as_DHPy p)` passes the sanity check and gives back `p`, and
every DHPy word with low tag bit 0 round-trips through `as_DebugHandle` and
`as_DHPy` to itself. -/
theorem cast_roundtrip :
    (∀ p : Int, p % 2 = 0 → as_DebugHandle (as_DHPy p) = some p)
    ∧ ∀ d : DHPy, d._i % 2 = 0 →
        ∃ q : Int, as_DebugHandle d = some q ∧ as_DHPy q = d := by
  constructor
  · intro p hp
    simp [as_DebugHandle, as_DHPy, DHPy_sanity_check, hp]
  · intro d hd
    refine ⟨d._i, ?_, rfl⟩
    simp [as_DebugHandle, DHPy_sanity_check, hd]

/-- C10 witness: the round trips evaluated at the concrete even words 4
and 6. -/
theorem cast_roundtrip_witness :
    as_DebugHandle (as_DHPy 4) = some 4
    ∧ ∃ q : Int, as_DebugHandle ⟨6⟩ = some q ∧ as_DHPy q = ⟨6⟩ := by
  exact ⟨cast_roundtrip.1 4 (by decide), cast_roundtrip.2 ⟨6⟩ (by decide)⟩

/-- C6 counterexample: with the default build configuration (the
`HPY_DEBUG_ENABLE_UHPY_SANITY_CHECK` flag off), the word 2 — a well-formed
wrapped-reference representation: non-null with low tag bit 0 — passes
`UHPy_sanity_check` where a raw underlying reference is expected, so passing
a wrapped reference where a raw one is expected is NOT rejected; this refutes
the claim that every such crossing is rejected by the sanity checks. -/
theorem uhpy_check_default_accepts_wrapped :
    UHPy_sanity_check false ⟨2⟩ = true
    ∧ HPy_IsNull ⟨2⟩ = false
    ∧ (⟨2⟩ : HPy)._i % 2 = 0
    ∧ DHPy_sanity_check ⟨2⟩ = true := by decide

/-- C6 (amended): attempting to unwrap a raw underlying reference (low tag
bit 1) as a wrapped one is always rejected by `DHPy_sanity_check` before any
dereference — `as_DebugHandle` fails and `DHPy_unwrap` ends in the failed
assert, never reaching the heap; in the other direction, passing a wrapped
reference (non-null, low bit 0) where a raw underlying one is expected is
rejected by `UHPy_sanity_check` only when `HPY_DEBUG_ENABLE_UHPY_SANITY_CHECK`
is compile-time enabled, and with the default configuration the check accepts
every value. -/
theorem sanity_check_tag_discipline :
    (∀ dh : DHPy, dh._i % 2 = 1 →
        DHPy_sanity_check dh = false ∧ as_DebugHandle dh = none)
    ∧ (∀ (heap : DHeap) (dh : DHPy), HPy_IsNull dh = false → dh._i % 2 = 1 →
        DHPy_unwrap heap dh = UnwrapOutcome.assertFailed)
    ∧ (∀ uh : UHPy, HPy_IsNull uh = false → uh._i % 2 = 0 →
        UHPy_sanity_check true uh = false)
    ∧ (∀ uh : UHPy, UHPy_sanity_check false uh = true) := by
  refine ⟨?_, ?_, ?_, ?_⟩
  · intro dh hodd
    have h1 : DHPy_sanity_check dh = false := by
      simp [DHPy_sanity_check, hodd]
    exact ⟨h1, by simp [as_DebugHandle, h1]⟩
  · intro heap dh hnull hodd
    simp [DHPy_unwrap, as_DebugHandle, DHPy_sanity_check, hnull, hodd]
  · intro uh hnull heven
    simp [UHPy_sanity_check, hnull, heven]
  · intro uh
    rfl

/-- C6 witness: the amended discipline evaluated at the odd word 3 (raw
reference rejected as wrapped), and at the even non-null word 2 (wrapped
reference rejected as raw exactly when the flag is enabled). -/
theorem sanity_check_tag_discipline_witness :
    (DHPy_sanity_check ⟨3⟩ = false ∧ as_DebugHandle ⟨3⟩ = none)
    ∧ DHPy_unwrap (fun _ => none) ⟨3⟩ = UnwrapOutcome.assertFailed
    ∧ UHPy_sanity_check true ⟨2⟩ = false
    ∧ UHPy_sanity_check false ⟨2⟩ = true := by
  exact ⟨sanity_check_tag_discipline.1 ⟨3⟩ (by decide),
    sanity_check_tag_discipline.2.1 (fun _ => none) ⟨3⟩ (by decide) (by decide),
    sanity_check_tag_discipline.2.2.1 ⟨2⟩ (by decide) (by decide),
    sanity_check_tag_discipline.2.2.2 ⟨2⟩⟩

/-- C7: `get_info` validates the session's constant tag — it returns the
session state stored in the context's private slot exactly when the stored
magic number equals `HPY_DEBUG_MAGIC`, and a context whose private data does
not carry the marker is detected (the assert fails) rather than silently
used. -/
theorem get_info_magic_check :
    ∀ dctx : HPyContext,
      (dctx._private.magic_number = HPY_DEBUG_MAGIC → get_info dctx = some dctx._private)
      ∧ (dctx._private.magic_number ≠ HPY_DEBUG_MAGIC → get_info dctx = none) := by
  intro dctx
  constructor
  · intro hm
    simp [get_info, hm]
  · intro hm
    simp [get_info, hm]

/-- C7 witness: a correctly tagged context yields its session state; a
context tagged 0 is rejected. -/
theorem get_info_magic_check_witness :
    get_info ⟨hpy_debug_info_init⟩ = some hpy_debug_info_init
    ∧ get_info ⟨{ hpy_debug_info_init with magic_number := 0 }⟩ = none := by
  constructor
  · exact (get_info_magic_check ⟨hpy_debug_info_init⟩).1 rfl
  · exact (get_info_magic_check ⟨{ hpy_debug_info_init with magic_number := 0 }⟩).2
      (by decide)

/-- C5: within one session, the generation values stamped onto wrappers by
successive open calls are non-decreasing in call order, and the session's
generation counter itself never decreases across any sequence of
operations. -/
theorem generation_monotone :
    ∀ (info : HPyDebugInfo) (ops : List DebugOp),
      List.Pairwise (fun a b : Int => a ≤ b) (assigned_generations info ops)
      ∧ info.current_generation ≤ (debug_run info ops).current_generation := by
  intro info ops
  exact ⟨assigned_pairwise ops info, debug_run_gen_mono info ops⟩

/-- C8: a session constructed without explicit configuration has quarantine
maximum exactly 1024 and protected-raw-data budget exactly 10 MiB
(10485760 bytes), and these limits are set at construction and never change
under any subsequent sequence of operations. -/
theorem default_limits_immutable :
    DEFAULT_CLOSED_HANDLES_QUEUE_MAX_SIZE = 1024
    ∧ DEFAULT_PROTECTED_RAW_DATA_MAX_SIZE = 10485760
    ∧ hpy_debug_info_init.closed_handles_queue_max_size = 1024
    ∧ hpy_debug_info_init.protected_raw_data_max_size = 10485760
    ∧ ∀ ops : List DebugOp,
        (debug_run hpy_debug_info_init ops).closed_handles_queue_max_size = 1024
        ∧ (debug_run hpy_debug_info_init ops).protected_raw_data_max_size = 10485760 := by
  refine ⟨rfl, rfl, rfl, rfl, ?_⟩
  intro ops
  have h := debug_run_const hpy_debug_info_init ops
  exact ⟨h.1, h.2.1⟩

/-- C3: across every sequence of session operations from construction, the
closed (quarantine) queue's size never exceeds the configured maximum, the
wrappers in the freed log are pairwise distinct (each evicted wrapper is
freed exactly once), and whenever a close's append would exceed the maximum,
the oldest closed wrapper is popped from the front of the quarantine and
appended once to the freed log. -/
theorem closed_queue_bounded_eviction :
    (∀ (qmax budget : Int) (ops : List DebugOp), 1 ≤ qmax →
        ((debug_run (session_init qmax budget) ops).closed_handles.length : Int) ≤ qmax
        ∧ ((debug_run (session_init qmax budget) ops).freed_handles.map
            (fun h => h.id)).Nodup)
    ∧ (∀ (info : HPyDebugInfo) (i : Nat) (h old : DebugHandle)
          (rest : List DebugHandle),
        info.open_handles.find? (fun g => g.id == i) = some h →
        info.closed_handles = old :: rest →
        (info.closed_handles.length : Int) + 1 > info.closed_handles_queue_max_size →
        (DHPy_close info i).freed_handles = info.freed_handles ++ [old]
        ∧ ∃ hc : DebugHandle, (DHPy_close info i).closed_handles = rest ++ [hc]) := by
  constructor
  · intro qmax budget ops hq
    obtain ⟨g1, g2, g3, g4⟩ :=
      QueueInv_run (session_init qmax budget) ops (QueueInv_init qmax budget hq)
    have hqeq := (debug_run_const (session_init qmax budget) ops).1
    refine ⟨g2.trans (le_of_eq hqeq), ?_⟩
    rw [List.nodup_iff_count_le_one]
    intro a
    have hc := g4 a
    rw [handles_of_decomp, cnt_append, cnt_append] at hc
    have hfr : cnt (debug_run (session_init qmax budget) ops).freed_handles a ≤ 1 := by
      omega
    simpa [cnt] using hfr
  · intro info i h old rest hf hcl hfull
    rw [DHPy_close_full info i h old rest hf hcl hfull]
    exact ⟨rfl, ⟨(close_policy_result info h).2, rfl⟩⟩

/-- C3 witness: with quarantine maximum 1, the spec's two-open/two-close
scenario stays within the bound and frees each wrapper once; and a concrete
full session in which closing the open wrapper with identity 1 evicts the
oldest quarantined wrapper from the front. -/
theorem closed_queue_bounded_eviction_witness :
    (((debug_run (session_init 1 0)
        [DebugOp.openH ⟨3⟩, DebugOp.closeH 0, DebugOp.openH ⟨5⟩,
          DebugOp.closeH 1]).closed_handles.length : Int) ≤ 1
      ∧ ((debug_run (session_init 1 0)
          [DebugOp.openH ⟨3⟩, DebugOp.closeH 0, DebugOp.openH ⟨5⟩,
            DebugOp.closeH 1]).freed_handles.map (fun h => h.id)).Nodup)
    ∧ ((DHPy_close
          ⟨HPY_DEBUG_MAGIC, 0, HPy_NULL, 1, 100, 0, [⟨⟨5⟩, 0, false, false, 0, 1⟩],
            [⟨⟨3⟩, 0, true, false, 0, 0⟩], [], 2, false⟩ 1).freed_handles
        = (⟨HPY_DEBUG_MAGIC, 0, HPy_NULL, 1, 100, 0, [⟨⟨5⟩, 0, false, false, 0, 1⟩],
            [⟨⟨3⟩, 0, true, false, 0, 0⟩], [], 2, false⟩ : HPyDebugInfo).freed_handles
          ++ [⟨⟨3⟩, 0, true, false, 0, 0⟩]
      ∧ ∃ hc : DebugHandle,
          (DHPy_close
            ⟨HPY_DEBUG_MAGIC, 0, HPy_NULL, 1, 100, 0, [⟨⟨5⟩, 0, false, false, 0, 1⟩],
              [⟨⟨3⟩, 0, true, false, 0, 0⟩], [], 2, false⟩ 1).closed_handles
            = [] ++ [hc]) := by
  refine ⟨closed_queue_bounded_eviction.1 1 0 _ (by decide), ?_⟩
  exact closed_queue_bounded_eviction.2
    ⟨HPY_DEBUG_MAGIC, 0, HPy_NULL, 1, 100, 0, [⟨⟨5⟩, 0, false, false, 0, 1⟩],
      [⟨⟨3⟩, 0, true, false, 0, 0⟩], [], 2, false⟩ 1
    ⟨⟨5⟩, 0, false, false, 0, 1⟩ ⟨⟨3⟩, 0, true, false, 0, 0⟩ [] rfl rfl (by decide)

/-- C4: across every sequence of session operations from construction, the
running total of currently protected raw-data bytes never exceeds the
configured budget; and at close time, when protecting the closing wrapper's
buffer would push the total over the budget, the raw-data guard releases the
buffer immediately instead of protecting it — the stored wrapper loses its
buffer and the running total is returned unchanged by that policy
decision. -/
theorem protected_raw_data_budget :
    (∀ (qmax budget : Int) (ops : List DebugOp), 0 ≤ budget →
        (debug_run (session_init qmax budget) ops).protected_raw_data_size ≤ budget)
    ∧ (∀ (total budget : Int) (h : DebugHandle),
        h.associated_data = true → total + h.associated_data_size > budget →
        raw_data_close_policy total budget h
          = (total, { h with associated_data := false, associated_data_size := 0 })) := by
  constructor
  · intro qmax budget ops hb
    have hinv := RawInv_run (session_init qmax budget) ops (RawInv_init qmax budget hb)
    have hbeq := (debug_run_const (session_init qmax budget) ops).2.1
    exact hinv.2.1.trans (le_of_eq hbeq)
  · intro total budget h hd hover
    simp [raw_data_close_policy, hd, hover]

/-- C4 witness: the spec's budget-100 scenario (protect 60 bytes, then a
50-byte buffer would overflow) stays within the budget across the run, and
the policy applied at total 60 to a 50-byte buffer releases it and leaves the
total at 60. -/
theorem protected_raw_data_budget_witness :
    (debug_run (session_init 1024 100)
        [DebugOp.openH ⟨3⟩, DebugOp.attach 0 60, DebugOp.closeH 0,
          DebugOp.openH ⟨5⟩, DebugOp.attach 1 50,
          DebugOp.closeH 1]).protected_raw_data_size ≤ 100
    ∧ raw_data_close_policy 60 100 ⟨⟨3⟩, 0, true, true, 50, 0⟩
        = (60, { (⟨⟨3⟩, 0, true, true, 50, 0⟩ : DebugHandle) with
            associated_data := false, associated_data_size := 0 }) := by
  refine ⟨protected_raw_data_budget.1 1024 100 _ (by decide), ?_⟩
  exact protected_raw_data_budget.2 60 100 ⟨⟨3⟩, 0, true, true, 50, 0⟩ rfl (by decide)
